import Mathlib

/-!
# Verification of the LaborGrow adaptive schema-mismatch insert loop

Shallow embedding of the schema-tolerant write path of `src/main.py`:

* `strip_unknown_column` embeds `_strip_unknown_column` (main.py:750-757),
  including an executable model of the regex search
  `re.search(r"Could not find the '(\w+)' column", error_msg)`.
* `post_job_loop` / `post_job` embed the retry loop of `post_job`
  (main.py:643-679).  The external store is an oracle mapping the attempt
  index to a response; besides the outcome the embedding returns the trace
  of candidate records passed to the store, in order, so that frame and
  invariant properties can be stated about what was actually inserted.
* `build_job_data` embeds `_build_job_data` (main.py:716-747).
* `apply_to_job` embeds the duplicate-application pre-check path of
  `apply_to_job` (main.py:499-557).

Python dicts with string keys are modelled as association lists
(`Record α`), which preserves insertion order exactly as CPython does;
`{k: v for k, v in data.items() if k != bad}` is `List.filter`.
Numeric pass-through values (salaries, coordinates) are modelled as `Rat`;
no claim performs arithmetic on them.  The WKT string
`f"SRID=4326;POINT({lng} {lat})"` is modelled as the composite constructor
`Value.vpoint lng lat`.
-/

set_option autoImplicit false

namespace LaborGrow

/-- A Python dict with string keys, in insertion order. -/
abbrev Record (α : Type) := List (String × α)

/-- Response of one `supabase.table("jobs").insert(...).execute()` call:
either `res.data` (a list of rows, each row's `.get("id")` modelled as an
optional numeric id) or a raised exception carrying `str(e)`. -/
inductive StoreResponse where
  | ok (rows : List (Option Nat))
  | err (msg : String)
deriving DecidableEq, Repr

/-- Terminal result of the `post_job` retry loop (main.py:646-679):
  * `success id attempts` — the 201 body `{"status": "success", "job_id": id, "attempts": attempts}`;
  * `noData` — HTTP 500 "Insert returned no data." (main.py:656);
  * `allStripped` — HTTP 500 "All columns stripped — check jobs table schema." (main.py:668-671);
  * `fatal err` — HTTP 400 "Database error: {err}" (main.py:674), carrying the raw error text;
  * `retriesExhausted last` — HTTP 400 "Insert failed after 15 attempts. Last error: {last}" (main.py:676-679). -/
inductive Outcome where
  | success (job_id : Option Nat) (attempts : Nat)
  | noData
  | allStripped
  | fatal (err : String)
  | retriesExhausted (last_error : Option String)
deriving DecidableEq, Repr

/-! ## String search: the error classifier and the column-name parser -/

/-- `drop_pre p l` is `some rest` iff `p` is a prefix of `l`, with `rest`
the remainder.  Helper for substring search and for the regex model. -/
def drop_pre : List Char → List Char → Option (List Char)
  | [], l => some l
  | _ :: _, [] => none
  | p :: ps, c :: cs => if p = c then drop_pre ps cs else none

/-- Whether `p` is a prefix of `l`. -/
def has_pre (p l : List Char) : Bool := (drop_pre p l).isSome

/-- Whether `p` occurs as a contiguous substring of `l`
(Python's `p in l` on strings). -/
def has_sub (p : List Char) : List Char → Bool
  | [] => has_pre p []
  | c :: cs => has_pre p (c :: cs) || has_sub p cs

/-- Python's `needle in hay` substring test. -/
def str_contains (hay needle : String) : Bool := has_sub needle.toList hay.toList

/-- The retry classifier of main.py:665:
`"PGRST204" in err or "Could not find the" in err`. -/
def retryable (msg : String) : Bool :=
  str_contains msg "PGRST204" || str_contains msg "Could not find the"

/-- The single-quote character `'` (code point 39) appearing in the regex
literal of main.py:752. -/
def squote : Char := Char.ofNat 39

/-- The literal text before the capture group of the regex
`Could not find the '(\w+)' column`. -/
def unknown_pre : List Char := "Could not find the ".toList ++ [squote]

/-- The literal text after the capture group of the regex. -/
def unknown_suf : List Char := squote :: " column".toList

/-- Python's `\w` on the ASCII column names this backend produces:
`[a-zA-Z0-9_]`. -/
def is_word_char (c : Char) : Bool := c.isAlphanum || c = '_'

/-- Attempt to match `Could not find the '(\w+)' column` at the head of `l`,
returning the captured group.  `\w+` is greedy and `'` is not a word
character, so taking the maximal word-character run is equivalent to the
regex engine's backtracking behaviour. -/
def match_here (l : List Char) : Option String :=
  match drop_pre unknown_pre l with
  | none => none
  | some rest =>
    let w := rest.takeWhile is_word_char
    if w.isEmpty then none
    else
      match drop_pre unknown_suf (rest.dropWhile is_word_char) with
      | none => none
      | some _ => some (String.mk w)

/-- Leftmost match of the pattern, as `re.search` scans positions left to
right. -/
def search_col : List Char → Option String
  | [] => none
  | c :: cs =>
    match match_here (c :: cs) with
    | some w => some w
    | none => search_col cs

/-- `re.search(r"Could not find the '(\w+)' column", error_msg)`, returning
the captured column name (main.py:752-754). -/
def extract_bad_column (msg : String) : Option String := search_col msg.toList

/-- `_strip_unknown_column` (main.py:750-757): if the regex matches, drop
every entry whose key is the captured column name
(`{k: v for k, v in data.items() if k != bad}`); otherwise return the
record unchanged. -/
def strip_unknown_column {α : Type} (data : Record α) (error_msg : String) : Record α :=
  match extract_bad_column error_msg with
  | some bad => data.filter (fun kv => decide (kv.1 ≠ bad))
  | none => data

/-! ## The adaptive insert loop -/

/-- Prepend the current candidate record to the trace of a recursive call. -/
def cons_trace {α : Type} (d : Record α) (r : Outcome × List (Record α)) :
    Outcome × List (Record α) :=
  (r.1, d :: r.2)

/-- The body of `for attempt in range(15)` (main.py:646-679), generalized
over the starting attempt index `a` and the remaining number of attempts
`fuel` (`a` counts from 0; the code runs with `a = 0`, `fuel = 15`).
`store` maps the attempt index to the store's response for that attempt.
Returns the outcome together with the list of candidate records passed to
the store, one per attempt actually made, in order. -/
def post_job_loop {α : Type} (store : Nat → StoreResponse) :
    Nat → Nat → Record α → Option String → Outcome × List (Record α)
  | _, 0, _, last => (.retriesExhausted last, [])
  | a, fuel + 1, d, last =>
    match store a with
    | .ok [] => (.noData, [d])
    | .ok (r :: _) => (.success r (a + 1), [d])
    | .err m =>
      if retryable m then
        if (strip_unknown_column d m).isEmpty then (.allStripped, [d])
        else cons_trace d (post_job_loop store (a + 1) fuel (strip_unknown_column d m) (some m))
      else (.fatal m, [d])

/-- The retry loop exactly as `post_job` runs it: attempt indices `0..14`,
hard ceiling `15` (main.py:646), no error observed yet. -/
def post_job {α : Type} (store : Nat → StoreResponse) (d : Record α) :
    Outcome × List (Record α) :=
  post_job_loop store 0 15 d none

/-- The candidate record as it stands before attempt `a + i`, starting from
`d` at attempt `a`: each error response strips the named column, each `ok`
response leaves the record alone (the loop would have returned there). -/
def rec_step {α : Type} (d : Record α) : StoreResponse → Record α
  | .ok _ => d
  | .err m => strip_unknown_column d m

/-- Iterate `rec_step` along the store's responses from attempt `a`. -/
def rec_from {α : Type} (store : Nat → StoreResponse) (a : Nat) (d : Record α) :
    Nat → Record α
  | 0 => d
  | i + 1 => rec_step (rec_from store a d i) (store (a + i))

/-- Strip the listed column names from `d`, left to right: the record that
survives a run of rejections naming exactly those columns. -/
def erase_keys {α : Type} (d : Record α) (xs : List String) : Record α :=
  xs.foldl (fun r x => r.filter (fun kv => decide (kv.1 ≠ x))) d

/-! ## The field normalizer -/

/-- A candidate column value (main.py:721-746).  Floats are pass-through
data here, modelled as `Rat`; `vpoint lng lat` models the WKT string
`f"SRID=4326;POINT({lng} {lat})"`. -/
inductive Value where
  | vstr (s : String)
  | vnat (n : Nat)
  | vrat (q : Rat)
  | vbool (b : Bool)
  | vlist (l : List String)
deriving DecidableEq, Repr

/-- Composite point representation used for both `lat_long` and `location`. -/
def Value.vpoint (lng lat : Rat) : Value := .vstr s!"SRID=4326;POINT({lng} {lat})"

/-- The validated job-posting request (the `JobCreate` pydantic model,
main.py:68-87), as consumed by `_build_job_data`. -/
structure JobCreate where
  title : String
  openings : Nat
  job_city : String
  total_experience : String
  salary_min : Rat
  salary_max : Rat
  offers_bonus : Bool
  required_skills : List String
  company_name : String
  contact_person : String
  phone_number : String
  email : String
  hiring_speed : String
  hiring_frequency : String

/-- `_build_job_data` (main.py:716-747): the maximal candidate record.
`lat`/`lng` are the coordinates `post_job` resolved (explicit or geocoded);
the geo columns are appended only when both are present. -/
def build_job_data (job : JobCreate) (employer_id : String)
    (lat lng : Option Rat) : Record Value :=
  let data : Record Value :=
    [("employer_id", .vstr employer_id),
     ("title", .vstr job.title),
     ("openings", .vnat job.openings),
     ("job_city", .vstr job.job_city),
     ("total_experience", .vstr job.total_experience),
     ("salary_min", .vrat job.salary_min),
     ("salary_max", .vrat job.salary_max),
     ("offers_bonus", .vbool job.offers_bonus),
     ("required_skills", .vlist job.required_skills),
     ("company_name", .vstr job.company_name),
     ("contact_person", .vstr job.contact_person),
     ("phone_number", .vstr job.phone_number),
     ("contact_email", .vstr job.email),
     ("email", .vstr job.email),
     ("hiring_speed", .vstr job.hiring_speed),
     ("hiring_frequency", .vstr job.hiring_frequency)]
  match lat, lng with
  | some la, some ln =>
    data ++
      [("lat_long", Value.vpoint ln la),
       ("lat", .vrat la),
       ("lng", .vrat ln),
       ("latitude", .vrat la),
       ("longitude", .vrat ln),
       ("location", Value.vpoint ln la)]
  | _, _ => data

/-! ## The apply-to-job duplicate pre-check -/

/-- Result classification of `apply_to_job` (main.py:468-557):
404 job-not-found, 409 conflict (duplicate), 201 created, 500 on an insert
that returned no data, 500 on an insert that raised. -/
inductive ApplyOutcome where
  | jobNotFound
  | conflict
  | created (application_id : Option Nat)
  | submitFailed
  | submitError (msg : String)
deriving DecidableEq, Repr

/-- Outcome of `apply_to_job` together with how many times each external
write-path query actually ran. -/
structure ApplyResult where
  outcome : ApplyOutcome
  dup_checks : Nat
  inserts : Nat
deriving DecidableEq, Repr

/-- `apply_to_job` (main.py:499-557) over oracles for its three queries:
the job lookup (`.single()` either raises or returns the row, whose
presence is re-checked), the duplicate pre-check
(`select("id").eq("job_id", ...).eq("email", ...)`, a raised exception is
swallowed and the insert still allowed — main.py:531-532), and the insert.
Any nonempty duplicate result is a 409 conflict raised before the insert
(main.py:524-528); the pre-check runs exactly once and is never retried. -/
def apply_to_job (job_res : Except String (Option String))
    (dup_res : Except String (List Nat))
    (ins_res : Except String (List (Option Nat))) : ApplyResult :=
  match job_res with
  | .error _ => ⟨.jobNotFound, 0, 0⟩
  | .ok none => ⟨.jobNotFound, 0, 0⟩
  | .ok (some _) =>
    match dup_res with
    | .ok (_ :: _) => ⟨.conflict, 1, 0⟩
    | _ =>
      match ins_res with
      | .ok [] => ⟨.submitFailed, 1, 1⟩
      | .ok (r :: _) => ⟨.created r, 1, 1⟩
      | .error m => ⟨.submitError m, 1, 1⟩

/-- A store error message of the exact shape PostgREST produces for an
unknown column, used to build concrete scenarios. -/
def unknown_col_msg (x : String) : String :=
  String.mk (unknown_pre ++ x.toList ++ unknown_suf ++ " of table jobs in the schema cache".toList)

/-! ## Basic lemmas about stripping and single loop steps -/

theorem isEmpty_eq_false_of_ne_nil {α : Type} {l : List α} (h : l ≠ []) :
    l.isEmpty = false := by
  cases l with
  | nil => exact absurd rfl h
  | cons a t => rfl

theorem strip_of_extract_none {α : Type} (d : Record α) {m : String}
    (h : extract_bad_column m = none) : strip_unknown_column d m = d := by
  simp [strip_unknown_column, h]

theorem strip_of_extract_some {α : Type} (d : Record α) {m x : String}
    (h : extract_bad_column m = some x) :
    strip_unknown_column d m = d.filter (fun kv => decide (kv.1 ≠ x)) := by
  simp [strip_unknown_column, h]

theorem strip_sublist {α : Type} (d : Record α) (m : String) :
    (strip_unknown_column d m).Sublist d := by
  unfold strip_unknown_column
  cases extract_bad_column m with
  | none => exact List.Sublist.refl d
  | some bad => exact List.filter_sublist d

theorem loop_step_nodata {α : Type} (store : Nat → StoreResponse) (a fuel : Nat)
    (d : Record α) (last : Option String) (h : store a = .ok []) :
    post_job_loop store a (fuel + 1) d last = (.noData, [d]) := by
  simp [post_job_loop, h]

theorem loop_step_ok {α : Type} (store : Nat → StoreResponse) (a fuel : Nat)
    (d : Record α) (last : Option String) (r : Option Nat) (rs : List (Option Nat))
    (h : store a = .ok (r :: rs)) :
    post_job_loop store a (fuel + 1) d last = (.success r (a + 1), [d]) := by
  simp [post_job_loop, h]

theorem loop_step_fatal {α : Type} (store : Nat → StoreResponse) (a fuel : Nat)
    (d : Record α) (last : Option String) (m : String)
    (h1 : store a = .err m) (h2 : retryable m = false) :
    post_job_loop store a (fuel + 1) d last = (.fatal m, [d]) := by
  simp [post_job_loop, h1, h2]

theorem loop_step_exhaust {α : Type} (store : Nat → StoreResponse) (a fuel : Nat)
    (d : Record α) (last : Option String) (m : String)
    (h1 : store a = .err m) (h2 : retryable m = true)
    (h3 : strip_unknown_column d m = []) :
    post_job_loop store a (fuel + 1) d last = (.allStripped, [d]) := by
  simp [post_job_loop, h1, h2, h3]

theorem loop_step_retry {α : Type} (store : Nat → StoreResponse) (a fuel : Nat)
    (d : Record α) (last : Option String) (m : String)
    (h1 : store a = .err m) (h2 : retryable m = true)
    (h3 : strip_unknown_column d m ≠ []) :
    post_job_loop store a (fuel + 1) d last =
      cons_trace d (post_job_loop store (a + 1) fuel (strip_unknown_column d m) (some m)) := by
  simp [post_job_loop, h1, h2, isEmpty_eq_false_of_ne_nil h3]

/-! ## Trace invariants -/

theorem trace_head {α : Type} (store : Nat → StoreResponse) (a fuel : Nat)
    (d : Record α) (last : Option String) :
    ((post_job_loop store a (fuel + 1) d last).2).head? = some d := by
  cases hst : store a with
  | ok rows =>
    cases rows with
    | nil => simp [loop_step_nodata store a fuel d last hst]
    | cons r rs => simp [loop_step_ok store a fuel d last r rs hst]
  | err m =>
    cases hr : retryable m with
    | false => simp [loop_step_fatal store a fuel d last m hst hr]
    | true =>
      by_cases he : strip_unknown_column d m = []
      · simp [loop_step_exhaust store a fuel d last m hst hr he]
      · simp [loop_step_retry store a fuel d last m hst hr he, cons_trace]

theorem trace_sublist {α : Type} (store : Nat → StoreResponse) :
    ∀ (fuel a : Nat) (d : Record α) (last : Option String),
      ∀ r ∈ (post_job_loop store a fuel d last).2, r.Sublist d := by
  intro fuel
  induction fuel with
  | zero => intro a d last r hr; simp [post_job_loop] at hr
  | succ fuel ih =>
    intro a d last r hr
    cases hst : store a with
    | ok rows =>
      cases rows with
      | nil =>
        rw [loop_step_nodata store a fuel d last hst] at hr
        simp at hr; subst hr; exact List.Sublist.refl _
      | cons x rs =>
        rw [loop_step_ok store a fuel d last x rs hst] at hr
        simp at hr; subst hr; exact List.Sublist.refl _
    | err m =>
      cases hrt : retryable m with
      | false =>
        rw [loop_step_fatal store a fuel d last m hst hrt] at hr
        simp at hr; subst hr; exact List.Sublist.refl _
      | true =>
        by_cases he : strip_unknown_column d m = []
        · rw [loop_step_exhaust store a fuel d last m hst hrt he] at hr
          simp at hr; subst hr; exact List.Sublist.refl _
        · rw [loop_step_retry store a fuel d last m hst hrt he] at hr
          simp only [cons_trace, List.mem_cons] at hr
          rcases hr with rfl | hr
          · exact List.Sublist.refl r
          · exact (ih (a + 1) (strip_unknown_column d m) (some m) r hr).trans
              (strip_sublist d m)

theorem trace_chain {α : Type} (store : Nat → StoreResponse) :
    ∀ (fuel a : Nat) (d : Record α) (last : Option String),
      ((post_job_loop store a fuel d last).2).Chain' (fun x y => y.Sublist x) := by
  intro fuel
  induction fuel with
  | zero => intro a d last; simp [post_job_loop]
  | succ fuel ih =>
    intro a d last
    cases hst : store a with
    | ok rows =>
      cases rows with
      | nil =>
        rw [loop_step_nodata store a fuel d last hst]; exact List.chain'_singleton d
      | cons x rs =>
        rw [loop_step_ok store a fuel d last x rs hst]; exact List.chain'_singleton d
    | err m =>
      cases hrt : retryable m with
      | false =>
        rw [loop_step_fatal store a fuel d last m hst hrt]; exact List.chain'_singleton d
      | true =>
        by_cases he : strip_unknown_column d m = []
        · rw [loop_step_exhaust store a fuel d last m hst hrt he]
          exact List.chain'_singleton d
        · rw [loop_step_retry store a fuel d last m hst hrt he]
          simp only [cons_trace]
          rw [List.chain'_cons']
          refine ⟨?_, ih (a + 1) (strip_unknown_column d m) (some m)⟩
          intro y hy
          cases fuel with
          | zero => simp [post_job_loop] at hy
          | succ fuel =>
            rw [trace_head store (a + 1) fuel (strip_unknown_column d m) (some m)] at hy
            cases hy
            exact strip_sublist d m

/-! ## Counting keys under a single strip -/

theorem filter_ne_eq_self {α : Type} {d : Record α} {x : String}
    (h : x ∉ d.map Prod.fst) : d.filter (fun kv => decide (kv.1 ≠ x)) = d := by
  rw [List.filter_eq_self]
  intro kv hkv
  simp only [decide_eq_true_eq]
  intro hfst
  exact h (hfst ▸ List.mem_map_of_mem Prod.fst hkv)

theorem length_filter_key {α : Type} :
    ∀ (d : Record α) (x : String), (d.map Prod.fst).Nodup → x ∈ d.map Prod.fst →
      (d.filter (fun kv => decide (kv.1 ≠ x))).length + 1 = d.length := by
  intro d
  induction d with
  | nil => intro x _ hx; simp at hx
  | cons kv t ih =>
    intro x hnd hx
    simp only [List.map_cons, List.nodup_cons] at hnd
    simp only [List.map_cons, List.mem_cons] at hx
    rcases hx with hx | hx
    · have hkv : (decide (kv.1 ≠ x)) = false := by simp [hx]
      rw [List.filter_cons, hkv]
      simp only [Bool.false_eq_true, if_false]
      rw [filter_ne_eq_self (hx ▸ hnd.1)]
      simp
    · have hne : kv.1 ≠ x := fun h => hnd.1 (h ▸ hx)
      have hkv : (decide (kv.1 ≠ x)) = true := by simp [hne]
      rw [List.filter_cons, hkv]
      simp only [if_true, List.length_cons]
      rw [Nat.add_right_comm, ih x hnd.2 hx]

theorem keys_filter_nodup {α : Type} (d : Record α) (p : String × α → Bool)
    (hnd : (d.map Prod.fst).Nodup) : ((d.filter p).map Prod.fst).Nodup :=
  hnd.sublist ((List.filter_sublist d).map Prod.fst)

theorem mem_keys_filter {α : Type} {d : Record α} {x y : String}
    (hy : y ∈ d.map Prod.fst) (hne : y ≠ x) :
    y ∈ (d.filter (fun kv => decide (kv.1 ≠ x))).map Prod.fst := by
  rcases List.mem_map.mp hy with ⟨kv, hkv, rfl⟩
  exact List.mem_map_of_mem Prod.fst
    (List.mem_filter.mpr ⟨hkv, by simpa using hne⟩)

/-! ## The record before each attempt -/

theorem rec_from_shift {α : Type} (store : Nat → StoreResponse) (a : Nat)
    (d : Record α) : ∀ n, rec_from store a d (n + 1) =
      rec_from store (a + 1) (rec_step d (store a)) n := by
  intro n
  induction n with
  | zero => simp [rec_from]
  | succ k ih =>
    show rec_step (rec_from store a d (k + 1)) (store (a + (k + 1))) =
      rec_step (rec_from store (a + 1) (rec_step d (store a)) k) (store (a + 1 + k))
    rw [ih]
    have : a + (k + 1) = a + 1 + k := by omega
    rw [this]

/-! ## Whole-run lemmas: success, exhaustion of columns, exhaustion of attempts -/

/-- A run of rejections each naming a distinct present column, followed by a
success: the loop succeeds on the attempt after the rejections, having
inserted exactly the records obtained by stripping the named columns one
after the other. -/
theorem success_run {α : Type} (store : Nat → StoreResponse) :
    ∀ (xs : List String) (a fuel : Nat) (d : Record α) (last : Option String)
      (j : Option Nat) (rest : List (Option Nat)),
      xs.length < fuel →
      (d.map Prod.fst).Nodup →
      xs.Nodup →
      (∀ x ∈ xs, x ∈ d.map Prod.fst) →
      d.length = xs.length + 1 →
      (∀ i (h : i < xs.length), ∃ m, store (a + i) = .err m ∧ retryable m = true ∧
        extract_bad_column m = some (xs.get ⟨i, h⟩)) →
      store (a + xs.length) = .ok (j :: rest) →
      (post_job_loop store a fuel d last).1 = .success j (a + xs.length + 1) ∧
      (post_job_loop store a fuel d last).2.length = xs.length + 1 ∧
      (post_job_loop store a fuel d last).2.getLast? = some (erase_keys d xs) := by
  intro xs
  induction xs with
  | nil =>
    intro a fuel d last j rest hfuel hnd hxs hmem hlen herr hok
    cases fuel with
    | zero => exact absurd hfuel (by omega)
    | succ f =>
      simp only [List.length_nil, Nat.add_zero] at hok ⊢
      rw [loop_step_ok store a f d last j rest hok]
      exact ⟨rfl, rfl, rfl⟩
  | cons x xs ih =>
    intro a fuel d last j rest hfuel hnd hxs hmem hlen herr hok
    simp only [List.length_cons] at hfuel hlen hok ⊢
    obtain ⟨m0, hst0, hretry0, hext0⟩ := herr 0 (Nat.succ_pos xs.length)
    have hext0' : extract_bad_column m0 = some x := hext0
    have hxmem : x ∈ d.map Prod.fst := hmem x (List.mem_cons_self x xs)
    have hstrip : strip_unknown_column d m0 = d.filter (fun kv => decide (kv.1 ≠ x)) :=
      strip_of_extract_some d hext0'
    have hlen2 : (d.filter (fun kv => decide (kv.1 ≠ x))).length + 1 = d.length :=
      length_filter_key d x hnd hxmem
    have hlen2' : (d.filter (fun kv => decide (kv.1 ≠ x))).length = xs.length + 1 := by
      omega
    have hd2ne : d.filter (fun kv => decide (kv.1 ≠ x)) ≠ [] := by
      intro h
      rw [h] at hlen2'
      simp at hlen2'
    cases fuel with
    | zero => exact absurd hfuel (by omega)
    | succ f =>
      have hfuel' : xs.length < f := by omega
      rw [loop_step_retry store a f d last m0 hst0 hretry0 (by rw [hstrip]; exact hd2ne)]
      rw [hstrip]
      have hnd2 := keys_filter_nodup d (fun kv => decide (kv.1 ≠ x)) hnd
      have hxnot : x ∉ xs := (List.nodup_cons.mp hxs).1
      have hxs2 : xs.Nodup := (List.nodup_cons.mp hxs).2
      have hmem2 : ∀ y ∈ xs, y ∈ (d.filter (fun kv => decide (kv.1 ≠ x))).map Prod.fst :=
        fun y hy =>
          mem_keys_filter (hmem y (List.mem_cons_of_mem x hy)) (fun h => hxnot (h ▸ hy))
      have herr2 : ∀ i (h : i < xs.length), ∃ m, store (a + 1 + i) = .err m ∧
          retryable m = true ∧ extract_bad_column m = some (xs.get ⟨i, h⟩) := by
        intro i h
        obtain ⟨m, h1, h2, h3⟩ := herr (i + 1) (Nat.succ_lt_succ h)
        refine ⟨m, ?_, h2, h3⟩
        have hidx : a + 1 + i = a + (i + 1) := by omega
        rw [hidx]
        exact h1
      have hok2 : store (a + 1 + xs.length) = .ok (j :: rest) := by
        have hidx : a + 1 + xs.length = a + (xs.length + 1) := by omega
        rw [hidx]
        exact hok
      obtain ⟨c1, c2, c3⟩ := ih (a + 1) f (d.filter (fun kv => decide (kv.1 ≠ x)))
        (some m0) j rest hfuel' hnd2 hxs2 hmem2 hlen2' herr2 hok2
      refine ⟨?_, ?_, ?_⟩
      · simp only [cons_trace]
        rw [c1]
        have hidx : a + 1 + xs.length + 1 = a + (xs.length + 1) + 1 := by omega
        rw [hidx]
      · simp only [cons_trace, List.length_cons, c2]
      · simp only [cons_trace]
        have hne : (post_job_loop store (a + 1) f
            (d.filter (fun kv => decide (kv.1 ≠ x))) (some m0)).2 ≠ [] := by
          intro hh
          rw [hh] at c2
          simp at c2
        cases hR : (post_job_loop store (a + 1) f
            (d.filter (fun kv => decide (kv.1 ≠ x))) (some m0)).2 with
        | nil => exact absurd hR hne
        | cons b t =>
          rw [List.getLast?_cons_cons]
          rw [hR] at c3
          exact c3

/-- A run of rejections naming every column of the record, one per attempt:
the loop reports `allStripped` and never passes an empty record to the
store. -/
theorem exhaust_run {α : Type} (store : Nat → StoreResponse) :
    ∀ (xs : List String) (a fuel : Nat) (d : Record α) (last : Option String),
      xs ≠ [] →
      xs.length ≤ fuel →
      (d.map Prod.fst).Nodup →
      xs.Nodup →
      (∀ x ∈ xs, x ∈ d.map Prod.fst) →
      d.length = xs.length →
      (∀ i (h : i < xs.length), ∃ m, store (a + i) = .err m ∧ retryable m = true ∧
        extract_bad_column m = some (xs.get ⟨i, h⟩)) →
      (post_job_loop store a fuel d last).1 = .allStripped ∧
      ∀ r ∈ (post_job_loop store a fuel d last).2, r ≠ [] := by
  intro xs
  induction xs with
  | nil => intro a fuel d last hne; exact absurd rfl hne
  | cons x xs ih =>
    intro a fuel d last _ hfuel hnd hxs hmem hlen herr
    simp only [List.length_cons] at hfuel hlen
    obtain ⟨m0, hst0, hretry0, hext0⟩ := herr 0 (Nat.succ_pos xs.length)
    have hext0' : extract_bad_column m0 = some x := hext0
    have hxmem : x ∈ d.map Prod.fst := hmem x (List.mem_cons_self x xs)
    have hstrip : strip_unknown_column d m0 = d.filter (fun kv => decide (kv.1 ≠ x)) :=
      strip_of_extract_some d hext0'
    have hlen2 : (d.filter (fun kv => decide (kv.1 ≠ x))).length + 1 = d.length :=
      length_filter_key d x hnd hxmem
    have hlen2' : (d.filter (fun kv => decide (kv.1 ≠ x))).length = xs.length := by
      omega
    have hdne : d ≠ [] := by
      intro h
      rw [h] at hlen
      simp at hlen
    cases fuel with
    | zero => exact absurd hfuel (by omega)
    | succ f =>
      cases xs with
      | nil =>
        have hd2 : d.filter (fun kv => decide (kv.1 ≠ x)) = [] := by
          have := hlen2'
          simpa [List.length_eq_zero] using this
        rw [loop_step_exhaust store a f d last m0 hst0 hretry0 (by rw [hstrip]; exact hd2)]
        refine ⟨rfl, ?_⟩
        intro r hr
        simp at hr
        subst hr
        exact hdne
      | cons y ys =>
        have hd2ne : d.filter (fun kv => decide (kv.1 ≠ x)) ≠ [] := by
          intro h
          rw [h] at hlen2'
          simp at hlen2'
        rw [loop_step_retry store a f d last m0 hst0 hretry0 (by rw [hstrip]; exact hd2ne)]
        rw [hstrip]
        have hnd2 := keys_filter_nodup d (fun kv => decide (kv.1 ≠ x)) hnd
        have hxnot : x ∉ y :: ys := (List.nodup_cons.mp hxs).1
        have hxs2 : (y :: ys).Nodup := (List.nodup_cons.mp hxs).2
        have hmem2 : ∀ z ∈ y :: ys,
            z ∈ (d.filter (fun kv => decide (kv.1 ≠ x))).map Prod.fst :=
          fun z hz =>
            mem_keys_filter (hmem z (List.mem_cons_of_mem x hz)) (fun h => hxnot (h ▸ hz))
        have herr2 : ∀ i (h : i < (y :: ys).length), ∃ m, store (a + 1 + i) = .err m ∧
            retryable m = true ∧ extract_bad_column m = some ((y :: ys).get ⟨i, h⟩) := by
          intro i h
          obtain ⟨m, h1, h2, h3⟩ := herr (i + 1) (Nat.succ_lt_succ h)
          refine ⟨m, ?_, h2, h3⟩
          have hidx : a + 1 + i = a + (i + 1) := by omega
          rw [hidx]
          exact h1
        obtain ⟨c1, c2⟩ := ih (a + 1) f (d.filter (fun kv => decide (kv.1 ≠ x)))
          (some m0) (by simp) (by simp only [List.length_cons] at hfuel ⊢; omega)
          hnd2 hxs2 hmem2 hlen2' herr2
        refine ⟨by simp only [cons_trace]; exact c1, ?_⟩
        intro r hr
        simp only [cons_trace, List.mem_cons] at hr
        rcases hr with rfl | hr
        · exact hdne
        · exact c2 r hr

/-- A run in which every attempt fails with a retryable error and the record
never empties: the loop consumes all its fuel and reports
`retriesExhausted` with the error of the last attempt. -/
theorem retries_run {α : Type} (store : Nat → StoreResponse) :
    ∀ (n a : Nat) (d : Record α) (last : Option String) (m : Nat → String),
      (∀ i, i < n + 1 → store (a + i) = .err (m i)) →
      (∀ i, i < n + 1 → retryable (m i) = true) →
      (∀ i, i < n + 1 → rec_from store a d (i + 1) ≠ []) →
      (post_job_loop store a (n + 1) d last).1 = .retriesExhausted (some (m n)) := by
  intro n
  induction n with
  | zero =>
    intro a d last m hst hretry hne
    have hst0 : store a = .err (m 0) := by
      have := hst 0 (by omega)
      simpa using this
    have hstrip : rec_from store a d 1 = strip_unknown_column d (m 0) := by
      simp [rec_from, rec_step, hst0]
    have hd2 : strip_unknown_column d (m 0) ≠ [] := by
      rw [← hstrip]
      exact hne 0 (by omega)
    rw [loop_step_retry store a 0 d last (m 0) hst0 (hretry 0 (by omega)) hd2]
    simp [cons_trace, post_job_loop]
  | succ n ih =>
    intro a d last m hst hretry hne
    have hst0 : store a = .err (m 0) := by
      have := hst 0 (by omega)
      simpa using this
    have hstrip : rec_from store a d 1 = strip_unknown_column d (m 0) := by
      simp [rec_from, rec_step, hst0]
    have hd2 : strip_unknown_column d (m 0) ≠ [] := by
      rw [← hstrip]
      exact hne 0 (by omega)
    rw [loop_step_retry store a (n + 1) d last (m 0) hst0 (hretry 0 (by omega)) hd2]
    simp only [cons_trace]
    have hstep : rec_step d (store a) = strip_unknown_column d (m 0) := by
      simp [rec_step, hst0]
    have hshift : ∀ i, rec_from store (a + 1) (strip_unknown_column d (m 0)) (i + 1) =
        rec_from store a d (i + 2) := by
      intro i
      rw [← hstep, ← rec_from_shift store a d (i + 1)]
    exact ih (a + 1) (strip_unknown_column d (m 0)) (some (m 0)) (fun i => m (i + 1))
      (fun i hi => by
        have hidx : a + 1 + i = a + (i + 1) := by omega
        rw [hidx]
        exact hst (i + 1) (by omega))
      (fun i hi => hretry (i + 1) (by omega))
      (fun i hi => by
        rw [hshift i]
        exact hne (i + 1) (by omega))

/-! ## Claim C1 -/

/-- C1 (amended: the record must have at most 15 fields, the hard attempt
ceiling of `post_job`): for a record with `N` (distinct) fields, if the
store rejects the first `N - 1` attempts with "unknown column" errors
naming distinct fields of the record and the `N`-th attempt succeeds
returning an identifier, then the loop returns success carrying that
identifier with `attempts = N`, made exactly `N` insert calls, and the
final insert used exactly the surviving field set (the record minus the
stripped columns). -/
theorem c1_success_within_ceiling {α : Type} (store : Nat → StoreResponse)
    (d : Record α) (xs : List String) (j : Nat) (rest : List (Option Nat))
    (h15 : d.length ≤ 15)
    (hnd : (d.map Prod.fst).Nodup)
    (hxs : xs.Nodup)
    (hmem : ∀ x ∈ xs, x ∈ d.map Prod.fst)
    (hlen : d.length = xs.length + 1)
    (herr : ∀ i (h : i < xs.length), ∃ m, store i = .err m ∧ retryable m = true ∧
      extract_bad_column m = some (xs.get ⟨i, h⟩))
    (hok : store xs.length = .ok (some j :: rest)) :
    (post_job store d).1 = .success (some j) d.length ∧
    (post_job store d).2.length = d.length ∧
    (post_job store d).2.getLast? = some (erase_keys d xs) := by
  have hfuel : xs.length < 15 := by omega
  have herr' : ∀ i (h : i < xs.length), ∃ m, store (0 + i) = .err m ∧
      retryable m = true ∧ extract_bad_column m = some (xs.get ⟨i, h⟩) := by
    intro i h
    rw [Nat.zero_add]
    exact herr i h
  have hok' : store (0 + xs.length) = .ok (some j :: rest) := by
    rw [Nat.zero_add]
    exact hok
  obtain ⟨c1, c2, c3⟩ := success_run store xs 0 15 d none (some j) rest hfuel hnd hxs
    hmem hlen herr' hok'
  refine ⟨?_, ?_, c3⟩
  · show (post_job_loop store 0 15 d none).1 = Outcome.success (some j) d.length
    rw [c1]
    have hidx : 0 + xs.length + 1 = d.length := by omega
    rw [hidx]
  · show (post_job_loop store 0 15 d none).2.length = d.length
    rw [c2]
    omega

/-- Store used for the counterexample to C1 as literally stated: it rejects
attempts 1..15 with "unknown column" errors naming the distinct fields
`c0`..`c14` of `c1_d16`, and would succeed with id 42 on attempt 16. -/
def c1_store16 : Nat → StoreResponse := fun i =>
  if i < 15 then .err (unknown_col_msg ("c" ++ toString i)) else .ok [some 42]

/-- A candidate record with 16 distinct fields `c0`..`c15` (the records
`_build_job_data` actually produces have 16 or 22 fields). -/
def c1_d16 : Record Nat := (List.range 16).map (fun i => ("c" ++ toString i, i))

/-- C1 counterexample: with `N = 16` fields, 15 "unknown column" rejections
naming the distinct fields `c0`..`c14` and a 16-th attempt that would
succeed with id 42, the loop does NOT return success(42, 16): the hard
ceiling of 15 attempts (main.py:646) fires first and it returns the
retries-exhausted failure carrying the 15th error. -/
theorem c1_counterexample :
    c1_d16.length = 16 ∧
    (post_job c1_store16 c1_d16).1 =
      .retriesExhausted (some (unknown_col_msg "c14")) ∧
    (post_job c1_store16 c1_d16).1 ≠ .success (some 42) 16 := by
  refine ⟨by decide, by decide, by decide⟩

/-- The store of the concrete scenario of C1: reject `b`, then reject `a`,
then succeed with id 42. -/
def c1w_store : Nat → StoreResponse
  | 0 => .err (unknown_col_msg "b")
  | 1 => .err (unknown_col_msg "a")
  | _ => .ok [some 42]

/-- C1 witness: the concrete scenario — record `{a:1, b:2, c:3}`,
rejections of `b` then `a`, success with id 42 on attempt 3 using `{c:3}`. -/
theorem c1_witness :
    (post_job c1w_store [("a", (1 : Nat)), ("b", 2), ("c", 3)]).1 = .success (some 42) 3 ∧
    (post_job c1w_store [("a", (1 : Nat)), ("b", 2), ("c", 3)]).2.length = 3 ∧
    (post_job c1w_store [("a", (1 : Nat)), ("b", 2), ("c", 3)]).2.getLast? =
      some (erase_keys [("a", 1), ("b", 2), ("c", 3)] ["b", "a"]) :=
  c1_success_within_ceiling c1w_store [("a", 1), ("b", 2), ("c", 3)] ["b", "a"] 42 []
    (by decide) (by decide) (by decide) (by decide) (by decide)
    (fun i h => by
      match i, h with
      | 0, _ => exact ⟨unknown_col_msg "b", rfl, by decide,
          (show extract_bad_column (unknown_col_msg "b") = some "b" by decide)⟩
      | 1, _ => exact ⟨unknown_col_msg "a", rfl, by decide,
          (show extract_bad_column (unknown_col_msg "a") = some "a" by decide)⟩
      | n + 2, h => exact absurd h (by show ¬ (n + 2 < 2); omega))
    (by decide)

/-! ## Claim C2 -/

/-- C2 (amended: the shrinkage is weak, not strict): across the attempts of
any execution of the loop, each attempt's record is a sublist of the
previous attempt's record, and every attempted record is a sublist of the
initial record — so a record never gains a key after creation.  The strict
version of the claim is refuted by `c2_counterexample`. -/
theorem c2_trace_monotone {α : Type} (store : Nat → StoreResponse) (a fuel : Nat)
    (d : Record α) (last : Option String) :
    ((post_job_loop store a fuel d last).2).Chain' (fun x y => y.Sublist x) ∧
    ∀ r ∈ (post_job_loop store a fuel d last).2, r.Sublist d :=
  ⟨trace_chain store fuel a d last, trace_sublist store fuel a d last⟩

/-- C2 counterexample: a retryable error (`"PGRST204 mystery"` contains
`PGRST204`) whose text does not match the column regex strips nothing, so
attempt 2 runs with a record of exactly the same key count as attempt 1 —
the record does not shrink strictly on every retry. -/
theorem c2_counterexample :
    (post_job (fun _ => StoreResponse.err "PGRST204 mystery") [("a", (1 : Nat))]).2.get? 0 =
      some [("a", 1)] ∧
    (post_job (fun _ => StoreResponse.err "PGRST204 mystery") [("a", (1 : Nat))]).2.get? 1 =
      some [("a", 1)] ∧
    retryable "PGRST204 mystery" = true := by
  refine ⟨by decide, by decide, by decide⟩

/-! ## Claim C3 -/

/-- C3: if every attempt is rejected with an "unknown column" error naming a
distinct field, until every field of the record has been stripped, the loop
returns the schema-mismatch-exhausted failure ("All columns stripped")
and never passes an empty record to the store. -/
theorem c3_schema_exhausted {α : Type} (store : Nat → StoreResponse)
    (d : Record α) (xs : List String)
    (hne : d ≠ [])
    (h15 : d.length ≤ 15)
    (hnd : (d.map Prod.fst).Nodup)
    (hxs : xs.Nodup)
    (hmem : ∀ x ∈ xs, x ∈ d.map Prod.fst)
    (hlen : d.length = xs.length)
    (herr : ∀ i (h : i < xs.length), ∃ m, store i = .err m ∧ retryable m = true ∧
      extract_bad_column m = some (xs.get ⟨i, h⟩)) :
    (post_job store d).1 = .allStripped ∧
    ∀ r ∈ (post_job store d).2, r ≠ [] := by
  have hxs_ne : xs ≠ [] := by
    intro h
    rw [h] at hlen
    simp only [List.length_nil] at hlen
    exact hne (List.length_eq_zero.mp hlen)
  have hfuel : xs.length ≤ 15 := by omega
  have herr' : ∀ i (h : i < xs.length), ∃ m, store (0 + i) = .err m ∧
      retryable m = true ∧ extract_bad_column m = some (xs.get ⟨i, h⟩) := by
    intro i h
    rw [Nat.zero_add]
    exact herr i h
  exact exhaust_run store xs 0 15 d none hxs_ne hfuel hnd hxs hmem hlen herr'

/-- The store for the C3 witness: always rejects naming column `a`. -/
def c3w_store : Nat → StoreResponse := fun _ => .err (unknown_col_msg "a")

/-- C3 witness: record `{a:1}`, the single field `a` is rejected, the loop
reports all columns stripped without a second store call. -/
theorem c3_witness : (post_job c3w_store [("a", (1 : Nat))]).1 = .allStripped :=
  (c3_schema_exhausted c3w_store [("a", 1)] ["a"]
    (by decide) (by decide) (by decide) (by decide) (by decide) (by decide)
    (fun i h => by
      match i, h with
      | 0, _ => exact ⟨unknown_col_msg "a", rfl, by decide,
          (show extract_bad_column (unknown_col_msg "a") = some "a" by decide)⟩
      | n + 1, h => exact absurd h (by show ¬ (n + 1 < 1); omega))).1

/-! ## Claim C4 -/

/-- C4: the first store error that is not classified retryable (does not
contain `PGRST204` or `Could not find the`) terminates the loop at once:
the result is the fatal failure carrying the raw error text, exactly one
insert was made in that loop run (no further attempts), and the record
passed to that single insert is the untouched `d` (no field stripped) —
regardless of how much fuel remains. -/
theorem c4_fatal_stops {α : Type} (store : Nat → StoreResponse) (a fuel : Nat)
    (d : Record α) (last : Option String) (m : String)
    (h1 : store a = .err m) (h2 : retryable m = false) :
    post_job_loop store a (fuel + 1) d last = (.fatal m, [d]) :=
  loop_step_fatal store a fuel d last m h1 h2

/-- C4 witness: a unique-constraint violation is not retryable and stops
the loop on attempt 1 with 14 attempts remaining. -/
theorem c4_witness :
    post_job_loop (fun _ => StoreResponse.err "duplicate key value violates unique constraint")
      0 15 [("a", (1 : Nat))] none =
    (.fatal "duplicate key value violates unique constraint", [[("a", 1)]]) :=
  c4_fatal_stops (fun _ => StoreResponse.err "duplicate key value violates unique constraint")
    0 14 [("a", 1)] none "duplicate key value violates unique constraint" rfl (by decide)

/-! ## Claim C5 -/

/-- C5: if all 15 attempts (the hard constant of main.py:646) fail with
retryable errors and the record never becomes empty, the loop returns the
retries-exhausted failure carrying the error text of the 15th (most
recent) attempt. -/
theorem c5_retries_exhausted {α : Type} (store : Nat → StoreResponse)
    (d : Record α) (m : Nat → String)
    (hst : ∀ i, i < 15 → store i = .err (m i))
    (hretry : ∀ i, i < 15 → retryable (m i) = true)
    (hne : ∀ i, i < 15 → rec_from store 0 d (i + 1) ≠ []) :
    (post_job store d).1 = .retriesExhausted (some (m 14)) := by
  have hst' : ∀ i, i < 14 + 1 → store (0 + i) = .err (m i) := by
    intro i hi
    rw [Nat.zero_add]
    exact hst i hi
  exact retries_run store 14 0 d none m hst' hretry hne

/-- The store for the C5 witness: every attempt fails with a retryable
error that names no column, so the record never shrinks nor empties. -/
def c5w_store : Nat → StoreResponse := fun _ => .err "PGRST204 mystery"

/-- C5 witness: 15 retryable failures on `{a:1}` end in retries-exhausted
carrying the last error text. -/
theorem c5_witness :
    (post_job c5w_store [("a", (1 : Nat))]).1 =
      .retriesExhausted (some "PGRST204 mystery") :=
  c5_retries_exhausted c5w_store [("a", 1)] (fun _ => "PGRST204 mystery")
    (fun _ _ => rfl) (by decide)
    (by decide)

/-! ## Claim C6 -/

/-- C6: an insert attempt that succeeds but returns no row data (`res.data`
empty, hence no identifier) is fatal at whatever attempt it occurs: the
loop returns the "Insert returned no data." failure immediately, having
made only that one insert, with fuel remaining. -/
theorem c6_no_data_fatal {α : Type} (store : Nat → StoreResponse) (a fuel : Nat)
    (d : Record α) (last : Option String)
    (h : store a = .ok []) :
    post_job_loop store a (fuel + 1) d last = (.noData, [d]) :=
  loop_step_nodata store a fuel d last h

/-- C6 witness: an empty-data success on attempt 1 of 15 stops the loop. -/
theorem c6_witness :
    post_job_loop (fun _ => StoreResponse.ok []) 0 15 [("a", (1 : Nat))] none =
      (.noData, [[("a", 1)]]) :=
  c6_no_data_fatal (fun _ => StoreResponse.ok []) 0 14 [("a", 1)] none rfl

/-! ## Claim C7 -/

/-- C7: when the error text matches the "unknown column" pattern naming
column `x`, stripping removes exactly the entries keyed `x` (for a record
with distinct keys, at most one entry), every other key keeps its value,
key `x` is gone, and the record loses at most one entry. -/
theorem c7_strip_single_column {α : Type} (d : Record α) (m x : String)
    (hext : extract_bad_column m = some x)
    (hnd : (d.map Prod.fst).Nodup) :
    strip_unknown_column d m = d.filter (fun kv => decide (kv.1 ≠ x)) ∧
    (∀ k v, k ≠ x → (((k, v) ∈ strip_unknown_column d m) ↔ (k, v) ∈ d)) ∧
    (∀ v, ((x, v) : String × α) ∉ strip_unknown_column d m) ∧
    d.length ≤ (strip_unknown_column d m).length + 1 := by
  have hs := strip_of_extract_some d hext
  refine ⟨hs, ?_, ?_, ?_⟩
  · intro k v hk
    rw [hs]
    simp [List.mem_filter, hk]
  · intro v
    rw [hs]
    simp [List.mem_filter]
  · rw [hs]
    by_cases hx : x ∈ d.map Prod.fst
    · rw [← length_filter_key d x hnd hx]
    · rw [filter_ne_eq_self hx]
      omega

/-- C7 witness: stripping with an error naming `b` on `{a:1, b:2}` removes
only the `b` entry. -/
theorem c7_witness :
    strip_unknown_column [("a", (1 : Nat)), ("b", 2)] (unknown_col_msg "b") =
      List.filter (fun kv => decide (kv.1 ≠ "b")) [("a", (1 : Nat)), ("b", 2)] ∧
    ([("a", (1 : Nat)), ("b", 2)] : Record Nat).length ≤
      (strip_unknown_column [("a", (1 : Nat)), ("b", 2)] (unknown_col_msg "b")).length + 1 :=
  ⟨(c7_strip_single_column [("a", 1), ("b", 2)] (unknown_col_msg "b") "b"
      (by decide) (by decide)).1,
   (c7_strip_single_column [("a", 1), ("b", 2)] (unknown_col_msg "b") "b"
      (by decide) (by decide)).2.2.2⟩

/-! ## Claim C8 -/

/-- C8: `_build_job_data` always includes the owner identifier, title,
opening count, city, experience, salary bounds, bonus flag, skills list,
company/contact fields and hiring-speed/frequency fields with the request's
values; and exactly when both coordinates are present it additionally
includes the composite point string (under `lat_long` and `location`) and
separate coordinate fields under both the `lat`/`lng` and
`latitude`/`longitude` naming conventions — when either coordinate is
missing, none of the six geo keys are present.  (It is a pure function of
its arguments: the embedding is a plain `def` with no effects.) -/
theorem c8_build_job_data (job : JobCreate) (uid : String) (lat lng : Option Rat) :
    (build_job_data job uid lat lng).lookup "employer_id" = some (.vstr uid) ∧
    (build_job_data job uid lat lng).lookup "title" = some (.vstr job.title) ∧
    (build_job_data job uid lat lng).lookup "openings" = some (.vnat job.openings) ∧
    (build_job_data job uid lat lng).lookup "job_city" = some (.vstr job.job_city) ∧
    (build_job_data job uid lat lng).lookup "total_experience" =
      some (.vstr job.total_experience) ∧
    (build_job_data job uid lat lng).lookup "salary_min" = some (.vrat job.salary_min) ∧
    (build_job_data job uid lat lng).lookup "salary_max" = some (.vrat job.salary_max) ∧
    (build_job_data job uid lat lng).lookup "offers_bonus" =
      some (.vbool job.offers_bonus) ∧
    (build_job_data job uid lat lng).lookup "required_skills" =
      some (.vlist job.required_skills) ∧
    (build_job_data job uid lat lng).lookup "company_name" =
      some (.vstr job.company_name) ∧
    (build_job_data job uid lat lng).lookup "contact_person" =
      some (.vstr job.contact_person) ∧
    (build_job_data job uid lat lng).lookup "phone_number" =
      some (.vstr job.phone_number) ∧
    (build_job_data job uid lat lng).lookup "contact_email" = some (.vstr job.email) ∧
    (build_job_data job uid lat lng).lookup "email" = some (.vstr job.email) ∧
    (build_job_data job uid lat lng).lookup "hiring_speed" =
      some (.vstr job.hiring_speed) ∧
    (build_job_data job uid lat lng).lookup "hiring_frequency" =
      some (.vstr job.hiring_frequency) ∧
    (build_job_data job uid lat lng).lookup "lat_long" =
      (match lat, lng with
       | some la, some ln => some (Value.vpoint ln la)
       | _, _ => none) ∧
    (build_job_data job uid lat lng).lookup "lat" =
      (match lat, lng with
       | some la, some _ => some (.vrat la)
       | _, _ => none) ∧
    (build_job_data job uid lat lng).lookup "lng" =
      (match lat, lng with
       | some _, some ln => some (.vrat ln)
       | _, _ => none) ∧
    (build_job_data job uid lat lng).lookup "latitude" =
      (match lat, lng with
       | some la, some _ => some (.vrat la)
       | _, _ => none) ∧
    (build_job_data job uid lat lng).lookup "longitude" =
      (match lat, lng with
       | some _, some ln => some (.vrat ln)
       | _, _ => none) ∧
    (build_job_data job uid lat lng).lookup "location" =
      (match lat, lng with
       | some la, some ln => some (Value.vpoint ln la)
       | _, _ => none) := by
  cases lat <;> cases lng <;>
    exact ⟨rfl, rfl, rfl, rfl, rfl, rfl, rfl, rfl, rfl, rfl, rfl,
      rfl, rfl, rfl, rfl, rfl, rfl, rfl, rfl, rfl, rfl, rfl⟩

/-! ## Claim C9 -/

/-- C9: when the job exists and the duplicate pre-check query succeeds
returning at least one existing application row for the (job_id, email)
pair, `apply_to_job` answers with the 409 conflict, performs zero inserts
(the rejection happens before any insert is attempted), and ran the
pre-check exactly once (it is never retried), whatever the insert oracle
would have answered. -/
theorem c9_duplicate_conflict (emp : String) (r : Nat) (rows : List Nat)
    (ins_res : Except String (List (Option Nat))) :
    apply_to_job (.ok (some emp)) (.ok (r :: rows)) ins_res =
      ⟨.conflict, 1, 0⟩ :=
  rfl

/-! ## Claim C10 -/

/-- C10: a store error classified retryable (contains `PGRST204` or
`Could not find the`) whose text nevertheless matches no
`Could not find the '<name>' column` fragment strips nothing:
`_strip_unknown_column` returns the record unchanged and the loop retries
the next attempt with the identical record. -/
theorem c10_retry_unchanged {α : Type} (store : Nat → StoreResponse) (a fuel : Nat)
    (d : Record α) (last : Option String) (m : String)
    (h1 : store a = .err m) (h2 : retryable m = true)
    (h3 : extract_bad_column m = none) (h4 : d ≠ []) :
    strip_unknown_column d m = d ∧
    post_job_loop store a (fuel + 1) d last =
      cons_trace d (post_job_loop store (a + 1) fuel d (some m)) := by
  have hs := strip_of_extract_none d h3
  refine ⟨hs, ?_⟩
  have hstep := loop_step_retry store a fuel d last m h1 h2 (by rw [hs]; exact h4)
  rw [hs] at hstep
  exact hstep

/-- C10 witness: `"PGRST204 mystery"` is retryable, matches no column
fragment, and the loop proceeds to attempt 2 with the identical record. -/
theorem c10_witness :
    strip_unknown_column [("a", (1 : Nat))] "PGRST204 mystery" = [("a", 1)] ∧
    post_job_loop (fun _ => StoreResponse.err "PGRST204 mystery") 0 15
      [("a", (1 : Nat))] none =
      cons_trace [("a", 1)]
        (post_job_loop (fun _ => StoreResponse.err "PGRST204 mystery") 1 14
          [("a", (1 : Nat))] (some "PGRST204 mystery")) :=
  c10_retry_unchanged (fun _ => StoreResponse.err "PGRST204 mystery") 0 14
    [("a", 1)] none "PGRST204 mystery" rfl (by decide) (by decide) (by decide)

end LaborGrow
